import Mathlib

/-!
Verification of the tubescript backend core (src/main.py): video id
extraction, time formatting, timedtext normalization, caption track
selection, the transcript fallback orchestrator and translation chunking.

Machine integers do not occur; Python floats on the relevant code paths
(millisecond offsets divided by 1000, rounded to two decimals) are modelled
exactly by rationals.  External library calls (HTTP, json.loads,
ET.fromstring, html.unescape, GoogleTranslator) are modelled as black boxes:
their decoded outcome is an explicit parameter of each function that
consumes them.
-/

/-- Characters accepted in a video id, the regex class [a-zA-Z0-9_-]. -/
def isIdChar (c : Char) : Bool :=
  c.isAlpha || c.isDigit || c == '_' || c == '-'

/-- The whitespace characters stripped by str.strip (ASCII subset). -/
def isSpaceChar (c : Char) : Bool :=
  c == ' ' || c == '\t' || c == '\n' || c == '\r' || c == '\x0b' || c == '\x0c'

/-- Model of Python str.strip on a character list. -/
def pyStrip (l : List Char) : List Char :=
  ((l.dropWhile isSpaceChar).reverse.dropWhile isSpaceChar).reverse

/-- Model of Python str.strip. -/
def pyStripStr (s : String) : String :=
  String.mk (pyStrip s.toList)

/-- Substring test on character lists, model of the Python `in` operator. -/
def containsSub : List Char → List Char → Bool
  | [], needle => needle.isEmpty
  | h :: t, needle => needle.isPrefixOf (h :: t) || containsSub t needle

/-- Model of the Python `needle in hay` substring test on strings. -/
def strContains (hay needle : String) : Bool :=
  containsSub hay.toList needle.toList

/-- Model of Python str.lower for the ASCII error markers used here. -/
def pyLower (s : String) : String :=
  String.mk (s.toList.map Char.toLower)

/-- One step of re.search for a pattern of the form PREFIX([a-zA-Z0-9_-]{11}):
does the pattern match starting exactly at the head of s. -/
def tryHere (pat s : List Char) : Option (List Char) :=
  if pat.isPrefixOf s then
    let cand := (s.drop pat.length).take 11
    if cand.length == 11 && cand.all isIdChar then some cand else none
  else none

/-- re.search for PREFIX([a-zA-Z0-9_-]{11}): try each start position left to
right, first successful position wins. -/
def searchPat (pat : List Char) : List Char → Option (List Char)
  | [] => none
  | c :: rest =>
    match tryHere pat (c :: rest) with
    | some r => some r
    | none => searchPat pat rest

/-- The ordered pattern prefixes of extract_video_id in src/main.py. -/
def idPatterns : List (List Char) :=
  ["v=".toList, "youtu.be/".toList, "shorts/".toList, "embed/".toList]

/-- The for-loop over patterns in extract_video_id: first pattern that
matches anywhere in the url wins. -/
def findFirstPattern : List (List Char) → List Char → Option (List Char)
  | [], _ => none
  | p :: ps, s =>
    match searchPat p s with
    | some r => some r
    | none => findFirstPattern ps s

/-- extract_video_id from src/main.py: ordered regex searches, then the
bare-id fallback on the stripped input, else None. -/
def extract_video_id (url : String) : Option String :=
  match findFirstPattern idPatterns url.toList with
  | some r => some (String.mk r)
  | none =>
    let t := pyStrip url.toList
    if t.length == 11 && t.all isIdChar then some (String.mk t) else none

/-- Python int() applied to a float: truncation toward zero. -/
def pyInt (q : ℚ) : ℤ :=
  if 0 ≤ q then ⌊q⌋ else ⌈q⌉

/-- Python "%02d" formatting of the minute and second fields. -/
def pad2 (n : ℤ) : String :=
  if 0 ≤ n ∧ n < 10 then "0" ++ toString n else toString n

/-- format_time from src/main.py.  Divisors are positive, so Python
floor-division and nonnegative remainder coincide with Int.ediv/Int.emod. -/
def format_time (seconds : ℚ) : String :=
  let s := pyInt seconds
  let h := Int.ediv s 3600
  let m := Int.ediv (Int.emod s 3600) 60
  let sec := Int.emod s 60
  if 0 < h then toString h ++ ":" ++ pad2 m ++ ":" ++ pad2 sec
  else toString m ++ ":" ++ pad2 sec

/-- Round to the nearest integer, halves to even, the rounding used by
Python round(). -/
def roundHalfEven (x : ℚ) : ℤ :=
  let n := ⌊x⌋
  if x - n < 1/2 then n
  else if (1 : ℚ)/2 < x - n then n + 1
  else if n % 2 = 0 then n else n + 1

/-- Python round(q, 2). -/
def round2 (q : ℚ) : ℚ :=
  (roundHalfEven (q * 100) : ℚ) / 100

/-- Python " ".join. -/
def joinSpace (l : List String) : String :=
  String.intercalate " " l

/-- The word-counting loop behind len(s.split()): walk the characters and
count the starts of maximal nonspace runs. -/
def wordCountAux : List Char → Bool → ℕ
  | [], _ => 0
  | c :: rest, inWord =>
    if isSpaceChar c then wordCountAux rest false
    else (if inWord then 0 else 1) + wordCountAux rest true

/-- Python len(s.split()): split on whitespace runs, empty pieces dropped. -/
def word_count (s : String) : ℕ :=
  wordCountAux s.toList false

/-- Python s.replace(chr(10), " "): every newline becomes a space (the
needle is a single character, so substring replacement is a character map). -/
def pyReplaceNewlines (s : String) : String :=
  String.mk (s.toList.map (fun c => if c = '\n' then ' ' else c))

/-- Python lang_code.startswith(lang). -/
def pyStartsWith (code lang : String) : Bool :=
  List.isPrefixOf lang.toList code.toList

/-- One segment of a JSON3 timedtext event (the utf8 field of segs). -/
structure Seg where
  utf8 : String
deriving DecidableEq

/-- One event of a decoded JSON3 timedtext payload; tStartMs and dDurationMs
default to 0 when absent (event.get with default 0). -/
structure Json3Event where
  tStartMs : ℚ
  dDurationMs : ℚ
  segs : List Seg
deriving DecidableEq

/-- One text element of a decoded XML timedtext document: the element text
(None possible) and its start/dur attributes already converted by float(),
with the default 0 applied when absent. -/
structure XmlTextElem where
  content : Option String
  start : ℚ
  dur : ℚ
deriving DecidableEq

/-- One canonical transcript line as built by both normalizers. -/
structure Line where
  text : String
  start : ℚ
  duration : ℚ
  formatted_time : String
deriving DecidableEq

/-- The text of one JSON3 event: keep segments that are nonempty and not a
lone newline, join with spaces, strip, HTML-unescape (the black-box u),
collapse newlines to spaces, strip again. -/
def eventText (u : String → String) (e : Json3Event) : String :=
  let parts := (e.segs.filter (fun s => s.utf8 != "" && s.utf8 != "\n")).map (fun s => s.utf8)
  let text := pyStripStr (joinSpace parts)
  let text := u text
  pyStripStr (pyReplaceNewlines text)

/-- The line contents built from one JSON3 event: milliseconds are divided
by 1000, start/duration rounded to two decimals, formatted_time computed
from the unrounded seconds value. -/
def lineOfEventJson (u : String → String) (e : Json3Event) : Line :=
  ⟨eventText u e, round2 (e.tStartMs / 1000), round2 (e.dDurationMs / 1000),
   format_time (e.tStartMs / 1000)⟩

/-- One loop iteration of parse_timedtext_json: a line is appended exactly
when the cleaned event text is nonempty. -/
def mkLineJson (u : String → String) (e : Json3Event) : Option Line :=
  if eventText u e = "" then none else some (lineOfEventJson u e)

/-- The body of parse_timedtext_json after a successful json.loads: build the
lines, and raise (return an error) when no line was produced. -/
def jsonEventsResult (u : String → String) (events : List Json3Event) :
    Except String (List Line × String) :=
  let lines := events.filterMap (mkLineJson u)
  if lines.isEmpty then .error "No lines parsed from timedtext"
  else .ok (lines, joinSpace (lines.map (fun l => l.text)))

/-- Removal of one re.sub(r'<[^>]+>', '') pass: drop every maximal segment
that starts with <, has at least one non-> character, and ends with >. -/
def stripTags (s : List Char) : List Char :=
  match s with
  | [] => []
  | c :: rest =>
    if c = '<' then
      let pre := rest.takeWhile (fun d => d ≠ '>')
      if pre.length > 0 && (rest.drop pre.length).head? == some '>' then
        stripTags (rest.drop (pre.length + 1))
      else
        '<' :: stripTags rest
    else
      c :: stripTags rest
termination_by s.length
decreasing_by
  all_goals simp only [List.length_cons, List.length_drop]
  all_goals omega

/-- String wrapper for stripTags. -/
def stripTagsStr (s : String) : String :=
  String.mk (stripTags s.toList)

/-- The text of one XML text element: unescape (black-box u) of the element
text with None replaced by the empty string, strip, then tag removal. -/
def xmlElemText (u : String → String) (e : XmlTextElem) : String :=
  stripTagsStr (pyStripStr (u (e.content.getD "")))

/-- The line contents built from one XML text element: start and dur are
already seconds, rounded to two decimals, formatted_time from the
unrounded start. -/
def lineOfElemXml (u : String → String) (e : XmlTextElem) : Line :=
  ⟨xmlElemText u e, round2 e.start, round2 e.dur, format_time e.start⟩

/-- One loop iteration of parse_timedtext_xml: a line is appended exactly
when the cleaned element text is nonempty. -/
def mkLineXml (u : String → String) (e : XmlTextElem) : Option Line :=
  if xmlElemText u e = "" then none else some (lineOfElemXml u e)

/-- parse_timedtext_xml from src/main.py.  The argument is the outcome of
ET.fromstring on the raw text: an error message when XML parsing itself
failed, else the list of .//text elements.  Both the parse failure and the
internal no-lines raise are wrapped by the surrounding except clause into
an "XML parse failed: " message. -/
def parse_timedtext_xml (u : String → String) (xml : Except String (List XmlTextElem)) :
    Except String (List Line × String) :=
  match xml with
  | .error m => .error ("XML parse failed: " ++ m)
  | .ok elems =>
    let lines := elems.filterMap (mkLineXml u)
    if lines.isEmpty then .error "XML parse failed: No lines in XML"
    else .ok (lines, joinSpace (lines.map (fun l => l.text)))

/-- The decoded view of one raw caption payload: either json.loads succeeds
and yields an events list (absent events key gives the [] default), or
json.loads raises JSONDecodeError and the same raw text is offered to the
XML parser. -/
inductive RawPayload where
  | json (events : List Json3Event)
  | notJson (xml : Except String (List XmlTextElem))

/-- parse_timedtext_json from src/main.py, instrumented with a flag telling
whether the XML fallback ran.  The except clause catches exactly
json.JSONDecodeError, so only a payload on which json.loads raised reaches
parse_timedtext_xml; the generic no-lines Exception propagates. -/
def parse_timedtext_json_t (u : String → String) (raw : RawPayload) :
    Except String (List Line × String) × Bool :=
  match raw with
  | .json events => (jsonEventsResult u events, false)
  | .notJson xml => (parse_timedtext_xml u xml, true)

/-- parse_timedtext_json from src/main.py (result only). -/
def parse_timedtext_json (u : String → String) (raw : RawPayload) :
    Except String (List Line × String) :=
  (parse_timedtext_json_t u raw).1

/-- One caption track dictionary as read by src/main.py: languageCode and
baseUrl default to the empty string, kind holds the asr marker for
auto-generated tracks (read only by the /languages endpoint). -/
structure Track where
  languageCode : String
  baseUrl : String
  kind : String
deriving DecidableEq

/-- Truthiness of the best_track variable: unset, or set to an empty url. -/
def trackUnset (b : Option Track) : Bool :=
  match b with
  | none => true
  | some t => t.baseUrl == ""

/-- The track whose baseUrl fetch_transcript_from_youtube ends up using:
first track matching the requested language exactly or by prefix, else
first track whose code contains "en", else the first track.  Each loop
breaks at its first match even when that match has an empty baseUrl, in
which case the next rule runs (best_track stays falsy). -/
def selectedTrack (tracks : List Track) (lang : String) : Option Track :=
  let b1 := tracks.find? (fun t => t.languageCode == lang || pyStartsWith t.languageCode lang)
  let b2 := if trackUnset b1 then tracks.find? (fun t => strContains t.languageCode "en") else b1
  if trackUnset b2 then tracks.head? else b2

/-- The caption url chosen by steps 3 of fetch_transcript_from_youtube, None
when the final best_track is still falsy (the "No usable caption track
found" raise). -/
def selectCaptionTrack (tracks : List Track) (lang : String) : Option String :=
  match selectedTrack tracks lang with
  | none => none
  | some t => if t.baseUrl = "" then none else some t.baseUrl

/-- Modelled from the words of claim C4 (and spec section 4.2), for
comparison with selectedTrack: exact-or-prefix match, else a code containing
"en", else a manually created (non-asr) track, else the first track. -/
def selectTrackPerClaim (tracks : List Track) (lang : String) : Option Track :=
  match tracks.find? (fun t => t.languageCode == lang || pyStartsWith t.languageCode lang) with
  | some t => some t
  | none =>
    match tracks.find? (fun t => strContains t.languageCode "en") with
    | some t => some t
    | none =>
      match tracks.find? (fun t => !(strContains t.kind "asr")) with
      | some t => some t
      | none => tracks.head?

/-- The environment-style configuration read once at startup; the empty
string models an unset variable (Python falsiness of ""). -/
structure Config where
  SCRAPER_API_KEY : String
  PROXY_URL : String
deriving DecidableEq

/-- One entry of the session_configs list in get_transcript. -/
structure SessionCfg where
  use_scraper : Bool
  use_proxy : Bool
  label : String
deriving DecidableEq

/-- The fixed strategy list of get_transcript, in priority order. -/
def session_configs : List SessionCfg :=
  [⟨true, false, "ScraperAPI"⟩, ⟨false, true, "Custom Proxy"⟩, ⟨false, false, "Direct"⟩]

/-- The credential filter of get_transcript: skip ScraperAPI without a key,
skip the custom proxy without a proxy url; Direct survives always. -/
def active_configs (c : Config) : List SessionCfg :=
  session_configs.filter
    (fun cfg => !(cfg.use_scraper && c.SCRAPER_API_KEY == "") &&
                !(cfg.use_proxy && c.PROXY_URL == ""))

/-- The result a strategy hands back on success: lines and full_text. -/
abbrev FetchResult := List Line × String

/-- Everything the network returns to one fetch_transcript_from_youtube
call, decoded: watch-page status, the caption tracks extracted from the
page html (empty when none were found), the direct timedtext response used
by method B (status, whether its stripped text is nonempty, payload), and
the per-url caption responses of step 4. -/
structure FetchEnv where
  pageStatus : ℕ
  captionTracks : List Track
  directStatus : ℕ
  directTextNonempty : Bool
  directPayload : RawPayload
  capStatus : String → ℕ
  capPayload : String → RawPayload

/-- fetch_transcript_from_youtube from src/main.py over a decoded network
environment: non-200 page fails; with no caption tracks, method B tries the
public timedtext endpoint and otherwise raises; with tracks, the selection
picks a url, fmt=json3 is appended when absent, a non-200 caption fetch
fails, and the body goes through parse_timedtext_json. -/
def fetch_transcript_from_youtube (env : FetchEnv) (u : String → String)
    (_video_id : String) (lang : String) : Except String FetchResult :=
  if env.pageStatus ≠ 200 then .error ("YouTube returned " ++ toString env.pageStatus)
  else if env.captionTracks.isEmpty then
    if env.directStatus = 200 && env.directTextNonempty then
      parse_timedtext_json u env.directPayload
    else .error "No caption tracks found in page source"
  else
    match selectCaptionTrack env.captionTracks lang with
    | none => .error "No usable caption track found"
    | some url =>
      let url := if strContains url "fmt=" then url else url ++ "&fmt=json3"
      if env.capStatus url ≠ 200 then
        .error ("Caption fetch returned " ++ toString (env.capStatus url))
      else parse_timedtext_json u (env.capPayload url)

/-- The strategy loop of get_transcript: try each active config in order;
any exception is recorded as last_error and the loop continues; the first
success returns immediately.  The second component of the result is the
list of labels of the configs that were actually attempted. -/
def runStrategies (attempt : SessionCfg → Except String FetchResult) :
    List SessionCfg → Option String → Except (Option String) FetchResult × List String
  | [], lastError => (.error lastError, [])
  | cfg :: rest, lastError =>
    match attempt cfg with
    | .ok t => (.ok t, [cfg.label])
    | .error e =>
      let r := runStrategies attempt rest (some e)
      (r.1, cfg.label :: r.2)

/-- The blocking markers of the terminal classification in get_transcript. -/
def blockMarkers : List String :=
  ["blocked", "403", "too many", "cloud"]

/-- The terminal failure classification of get_transcript: 503 when the
lowercased last error contains a blocking marker, else 404. -/
def classifyTerminal (lastError : Option String) : ℕ × String :=
  let el := pyLower (lastError.getD "")
  if blockMarkers.any (fun w => strContains el w) then
    (503, "YouTube is blocking this server. Please try again later.")
  else
    (404, "No transcript found. This video may not have captions, or may be private/age-restricted.")

/-- The JSON body of a successful POST /transcript response. -/
structure TranscriptResponse where
  video_id : String
  transcript : List Line
  full_text : String
  word_count : ℕ
  language : String
deriving DecidableEq

/-- The POST /transcript handler over a per-strategy network environment:
invalid url gives 400, then the strategy loop runs over the active configs,
a success builds the response (language is the requested language), and
exhaustion classifies the last error into 503 or 404. -/
def get_transcript (c : Config) (envOf : SessionCfg → FetchEnv) (u : String → String)
    (url : String) (language : String) : Except (ℕ × String) TranscriptResponse :=
  match extract_video_id url with
  | none => .error (400, "Invalid YouTube URL.")
  | some video_id =>
    let attempt := fun cfg => fetch_transcript_from_youtube (envOf cfg) u video_id language
    match (runStrategies attempt (active_configs c) none).1 with
    | .ok (lines, full_text) =>
      .ok ⟨video_id, lines, full_text, word_count full_text, language⟩
    | .error lastError => .error (classifyTerminal lastError)

/-- The slicing loop of translate_text: text[i:i+n] for i in range(0, len, n). -/
def chunksOf (n : ℕ) (s : List Char) : List (List Char) :=
  match s with
  | [] => []
  | c :: rest => (c :: rest).take n :: chunksOf n (rest.drop (n - 1))
termination_by s.length
decreasing_by
  simp only [List.length_cons, List.length_drop]
  omega

/-- The sequential for-loop of translate_text over the chunks: stop at the
first translator exception, otherwise collect the results in order. -/
def translateChunks (tr : String → Except String String) :
    List String → Except String (List String)
  | [] => .ok []
  | c :: rest =>
    match tr c with
    | .error e => .error e
    | .ok r =>
      match translateChunks tr rest with
      | .error e => .error e
      | .ok rs => .ok (r :: rs)

/-- The POST /translate handler: missing text or target gives 400, the text
is cut into chunks of at most 4500 characters, each chunk goes through the
translator (black-box tr), the results are joined with spaces, and any
translation error fails the whole call with 500. -/
def translate_text (tr : String → Except String String)
    (text : String) (target_language : String) : Except (ℕ × String) (String × String) :=
  if text = "" ∨ target_language = "" then .error (400, "Missing text or target language")
  else
    let chunks := (chunksOf 4500 text.toList).map (fun c => String.mk c)
    match translateChunks tr chunks with
    | .ok translated_chunks => .ok (joinSpace translated_chunks, target_language)
    | .error e => .error (500, "Translation failed: " ++ e)

/-- Equality of Except values is decidable when it is on both sides; used
only to evaluate concrete runs of the model. -/
instance {ε α : Type} [DecidableEq ε] [DecidableEq α] : DecidableEq (Except ε α) := by
  intro a b
  cases a <;> cases b
  case error.error x y =>
    exact if h : x = y then .isTrue (by rw [h]) else .isFalse (by intro hh; cases hh; exact h rfl)
  case error.ok x y => exact .isFalse (by intro hh; cases hh)
  case ok.error x y => exact .isFalse (by intro hh; cases hh)
  case ok.ok x y =>
    exact if h : x = y then .isTrue (by rw [h]) else .isFalse (by intro hh; cases hh; exact h rfl)

/-- A position-k mismatch between the pattern and the fixed prefix of the
searched text, visible inside the prefix alone.  Used to discharge, by
decision, that a regex pattern cannot match at start position i when the
text is that prefix followed by arbitrary id characters. -/
def MismatchAt (pat pre : List Char) (i : ℕ) : Prop :=
  ∃ k < pat.length, i + k < pre.length ∧ pat.get? k ≠ pre.get? (i + k)

instance (pat pre : List Char) (i : ℕ) : Decidable (MismatchAt pat pre i) := by
  unfold MismatchAt
  infer_instance

/-- A concrete network environment for evaluating the pipeline: the watch
page returns one French caption track whose caption url returns a one-line
JSON3 payload. -/
def envC8 : FetchEnv :=
  ⟨200, [⟨"fr", "u1", ""⟩], 0, false, .json [], fun _ => 200,
   fun _ => .json [⟨0, 1000, [⟨"bonjour"⟩]⟩]⟩

/-! ### Shared lemmas -/

/-- pyInt of a nonnegative rational is its floor. -/
lemma pyInt_of_nonneg {q : ℚ} (h : 0 ≤ q) : pyInt q = ⌊q⌋ := by
  simp [pyInt, h]

/-- Truncating a natural number of seconds plus a fraction in [0, 1) gives
back the natural number. -/
lemma pyInt_nat_add_fract (s : ℕ) (f : ℚ) (h0 : 0 ≤ f) (h1 : f < 1) :
    pyInt ((s : ℚ) + f) = (s : ℤ) := by
  have hnn : (0 : ℚ) ≤ (s : ℚ) + f := by positivity
  rw [pyInt_of_nonneg hnn, add_comm, Int.floor_add_nat,
      Int.floor_eq_zero_iff.mpr (Set.mem_Ico.mpr ⟨h0, h1⟩)]
  simp

/-- format_time only looks at the truncated integer value of its input. -/
lemma format_time_congr {a b : ℚ} (h : pyInt a = pyInt b) :
    format_time a = format_time b := by
  simp only [format_time, h]

/-! ### C10: format_time truncation and padding -/

/-- C10, counterexample: the claim says minutes are always zero-padded to
two digits, but for 65.9 seconds the code produces "1:05" with a one-digit
minute field (a zero-padded minute field would give "01:05"); minutes are
padded only when an hour part is present. -/
theorem c10_counterexample_minute_padding :
    format_time ((659 : ℚ)/10) = "1:05" ∧ format_time ((659 : ℚ)/10) ≠ "01:05" := by
  have h : pyInt ((659 : ℚ)/10) = 65 := by norm_num [pyInt]
  constructor
  · simp only [format_time, h]; rfl
  · simp only [format_time, h]; decide

/-- C10, amended: format_time truncates its input toward zero before
formatting, so adding any fraction in [0, 1) to a whole number of seconds
does not change the output; 65.9 formats as "1:05"; seconds are always
zero-padded to two digits and minutes are zero-padded exactly when an hour
part is present, while hours are never padded. -/
theorem c10_format_time_amended :
    (∀ (s : ℕ) (f : ℚ), 0 ≤ f → f < 1 → format_time ((s : ℚ) + f) = format_time (s : ℚ))
    ∧ (∀ n : ℤ, 0 ≤ n → n < 60 → (pad2 n).length = 2)
    ∧ format_time ((659 : ℚ)/10) = "1:05"
    ∧ format_time (0 : ℚ) = "0:00"
    ∧ format_time (3605 : ℚ) = "1:00:05"
    ∧ format_time (3661 : ℚ) = "1:01:01"
    ∧ format_time (36005 : ℚ) = "10:00:05" := by
  refine ⟨?_, ?_, ?_, ?_, ?_, ?_, ?_⟩
  · intro s f h0 h1
    apply format_time_congr
    rw [pyInt_nat_add_fract s f h0 h1, pyInt_of_nonneg (by positivity), Int.floor_natCast]
  · intro n h0 h60
    interval_cases n <;> decide
  · have h : pyInt ((659 : ℚ)/10) = 65 := by norm_num [pyInt]
    simp only [format_time, h]; rfl
  · have h : pyInt (0 : ℚ) = 0 := by norm_num [pyInt]
    simp only [format_time, h]; rfl
  · have h : pyInt (3605 : ℚ) = 3605 := by norm_num [pyInt]
    simp only [format_time, h]; rfl
  · have h : pyInt (3661 : ℚ) = 3661 := by norm_num [pyInt]
    simp only [format_time, h]; rfl
  · have h : pyInt (36005 : ℚ) = 36005 := by norm_num [pyInt]
    simp only [format_time, h]; rfl

/-- C10, witness: the truncation part of the amended theorem applied at
65 seconds plus the fraction 9/10. -/
theorem c10_format_time_amended_witness :
    format_time (((65 : ℕ) : ℚ) + 9/10) = format_time ((65 : ℕ) : ℚ) :=
  c10_format_time_amended.1 65 (9/10) (by norm_num) (by norm_num)

/-! ### C7: translate chunking -/

/-- A chunk list of a nonempty text is nonempty. -/
lemma chunksOf_ne_nil (n : ℕ) (c : Char) (rest : List Char) :
    chunksOf n (c :: rest) ≠ [] := by
  rw [chunksOf]
  simp

/-- The chunks concatenate back to the original text (chunk size positive). -/
lemma chunksOf_flatten_aux (n : ℕ) (hn : 0 < n) :
    ∀ (fuel : ℕ) (s : List Char), s.length ≤ fuel → (chunksOf n s).flatten = s := by
  intro fuel
  induction fuel with
  | zero =>
    intro s hs
    have hnil : s = [] := by cases s <;> simp_all
    subst hnil
    simp [chunksOf]
  | succ k ih =>
    intro s hs
    cases s with
    | nil => simp [chunksOf]
    | cons c rest =>
      rw [chunksOf]
      simp only [List.flatten_cons]
      have hlen : (rest.drop (n - 1)).length ≤ k := by
        simp only [List.length_drop]
        simp only [List.length_cons] at hs
        omega
      rw [ih _ hlen]
      obtain ⟨m, rfl⟩ : ∃ m, n = m + 1 := ⟨n - 1, by omega⟩
      simp only [List.take_succ_cons, Nat.add_sub_cancel]
      rw [List.cons_append, List.take_append_drop]

/-- Every chunk has length at most the chunk size. -/
lemma chunksOf_length_le (n : ℕ) :
    ∀ (fuel : ℕ) (s : List Char), s.length ≤ fuel →
      ∀ ch ∈ chunksOf n s, ch.length ≤ n := by
  intro fuel
  induction fuel with
  | zero =>
    intro s hs ch hch
    have hnil : s = [] := by cases s <;> simp_all
    subst hnil
    simp [chunksOf] at hch
  | succ k ih =>
    intro s hs ch hch
    cases s with
    | nil => simp [chunksOf] at hch
    | cons c rest =>
      rw [chunksOf] at hch
      rcases List.mem_cons.mp hch with rfl | hch2
      · simp [List.length_take]
      · refine ih (rest.drop (n - 1)) ?_ ch hch2
        simp only [List.length_drop]
        simp only [List.length_cons] at hs
        omega

/-- A text longer than the chunk size produces at least two chunks. -/
lemma chunksOf_two (n : ℕ) (s : List Char) (hn : 0 < n) (h : n < s.length) :
    2 ≤ (chunksOf n s).length := by
  cases s with
  | nil => simp at h
  | cons c rest =>
    rw [chunksOf]
    simp only [List.length_cons] at h
    have hne : rest.drop (n - 1) ≠ [] := by
      intro hd
      have := congrArg List.length hd
      simp only [List.length_drop, List.length_nil] at this
      omega
    simp only [List.length_cons]
    have h1 : 1 ≤ (chunksOf n (rest.drop (n - 1))).length := by
      cases hd : rest.drop (n - 1) with
      | nil => exact absurd hd hne
      | cons d ds =>
        cases hq : chunksOf n (d :: ds) with
        | nil => exact absurd hq (chunksOf_ne_nil n d ds)
        | cons q qs => simp
    omega

/-- A successful chunk loop means every chunk translated successfully. -/
lemma translateChunks_ok_mem {tr : String → Except String String} :
    ∀ {l outs : List String}, translateChunks tr l = .ok outs →
      ∀ x ∈ l, ∃ y, tr x = .ok y := by
  intro l
  induction l with
  | nil => intro outs h x hx; simp at hx
  | cons c rest ih =>
    intro outs h x hx
    rw [translateChunks] at h
    rcases hc : tr c with e | r
    · rw [hc] at h; cases h
    · rw [hc] at h
      rcases hrest : translateChunks tr rest with e2 | rs
      · rw [hrest] at h; cases h
      · rw [hrest] at h
        rcases List.mem_cons.mp hx with rfl | hx2
        · exact ⟨r, hc⟩
        · exact ih hrest x hx2

/-- The identity translator succeeds on every chunk list. -/
lemma translateChunks_id_ok : ∀ l : List String, translateChunks (fun s => .ok s) l = .ok l := by
  intro l
  induction l with
  | nil => rfl
  | cons c rest ih => rw [translateChunks, ih]

/-- C7: for nonempty text longer than 4500 characters with a target
language, translate_text splits the text into consecutive chunks of at
most 4500 characters whose concatenation is the whole text (at least two
of them), translates them in order and returns their space-join on total
success, and fails with status 500 and no partial result as soon as any
chunk translation fails. -/
theorem c7_translate_chunking (tr : String → Except String String)
    (text target_language : String)
    (htext : text ≠ "") (htgt : target_language ≠ "") (hlong : 4500 < text.toList.length) :
    (∀ ch ∈ chunksOf 4500 text.toList, ch.length ≤ 4500)
    ∧ (chunksOf 4500 text.toList).flatten = text.toList
    ∧ 2 ≤ (chunksOf 4500 text.toList).length
    ∧ (∀ outs, translateChunks tr ((chunksOf 4500 text.toList).map (fun c => String.mk c)) = .ok outs →
        translate_text tr text target_language = .ok (joinSpace outs, target_language))
    ∧ (∀ ch e, ch ∈ (chunksOf 4500 text.toList).map (fun c => String.mk c) → tr ch = .error e →
        ∃ msg, translate_text tr text target_language = .error (500, msg)) := by
  have hcond : ¬(text = "" ∨ target_language = "") := by
    rintro (h | h)
    · exact htext h
    · exact htgt h
  refine ⟨?_, ?_, ?_, ?_, ?_⟩
  · exact chunksOf_length_le 4500 text.toList.length text.toList le_rfl
  · exact chunksOf_flatten_aux 4500 (by norm_num) text.toList.length text.toList le_rfl
  · exact chunksOf_two 4500 text.toList (by norm_num) hlong
  · intro outs h
    simp only [translate_text, if_neg hcond, h]
  · intro ch e hch htr
    rcases hres : translateChunks tr ((chunksOf 4500 text.toList).map (fun c => String.mk c))
        with e2 | outs
    · exact ⟨"Translation failed: " ++ e2, by simp only [translate_text, if_neg hcond, hres]⟩
    · obtain ⟨y, hy⟩ := translateChunks_ok_mem hres ch hch
      rw [htr] at hy
      cases hy

set_option maxRecDepth 40000 in
/-- C7, witness: the success branch of the chunking theorem applied to the
identity translator on a 4501-character text. -/
theorem c7_translate_chunking_witness :
    translate_text (fun s => .ok s) (String.mk (List.replicate 4501 'a')) "fr"
      = .ok (joinSpace ((chunksOf 4500 (String.mk (List.replicate 4501 'a')).toList).map
          (fun c => String.mk c)), "fr") :=
  (c7_translate_chunking (fun s => .ok s) (String.mk (List.replicate 4501 'a')) "fr"
    (by decide) (by decide)
    (by rw [show (String.mk (List.replicate 4501 'a')).toList = List.replicate 4501 'a' from rfl,
            List.length_replicate]
        norm_num)).2.2.2.1
    _ (translateChunks_id_ok _)

/-! ### C6 and C9: an empty normalization is a failure -/

/-- When every event cleans to empty text the JSON3 normalizer raises. -/
lemma jsonEventsResult_of_all_empty (u : String → String) (events : List Json3Event)
    (h : ∀ ev ∈ events, eventText u ev = "") :
    jsonEventsResult u events = .error "No lines parsed from timedtext" := by
  have hnil : events.filterMap (mkLineJson u) = [] :=
    List.filterMap_eq_nil_iff.mpr (fun a ha => by simp [mkLineJson, h a ha])
  simp [jsonEventsResult, hnil]

/-- When every XML element cleans to empty text the XML normalizer raises. -/
lemma xmlResult_of_all_empty (u : String → String) (elems : List XmlTextElem)
    (h : ∀ el ∈ elems, xmlElemText u el = "") :
    parse_timedtext_xml u (.ok elems) = .error "XML parse failed: No lines in XML" := by
  have hnil : elems.filterMap (mkLineXml u) = [] :=
    List.filterMap_eq_nil_iff.mpr (fun a ha => by simp [mkLineXml, h a ha])
  simp [parse_timedtext_xml, hnil]

/-- C6: a normalizer that parses but yields zero nonempty lines signals
failure instead of returning an empty transcript (both for JSON3 events and
for XML elements), and the strategy loop treats any strategy error as a
recorded failure and proceeds to the next strategy. -/
theorem c6_empty_normalizer_fails (u : String → String) (events : List Json3Event)
    (elems : List XmlTextElem) (attempt : SessionCfg → Except String FetchResult)
    (cfg1 cfg2 : SessionCfg) (e : String) (t : FetchResult)
    (hjson : ∀ ev ∈ events, eventText u ev = "")
    (hxml : ∀ el ∈ elems, xmlElemText u el = "")
    (h1 : attempt cfg1 = .error e) (h2 : attempt cfg2 = .ok t) :
    jsonEventsResult u events = .error "No lines parsed from timedtext"
    ∧ parse_timedtext_xml u (.ok elems) = .error "XML parse failed: No lines in XML"
    ∧ runStrategies attempt [cfg1, cfg2] none = (.ok t, [cfg1.label, cfg2.label]) := by
  refine ⟨jsonEventsResult_of_all_empty u events hjson, xmlResult_of_all_empty u elems hxml, ?_⟩
  simp [runStrategies, h1, h2]

/-- C6, witness: a one-event payload cleaning to empty text makes the JSON
and XML normalizers fail, and a failing first strategy is followed by a
succeeding second one. -/
theorem c6_empty_normalizer_fails_witness :
    jsonEventsResult (fun s => s) [⟨0, 0, []⟩] = .error "No lines parsed from timedtext"
    ∧ parse_timedtext_xml (fun s => s) (.ok [⟨none, 0, 0⟩])
        = .error "XML parse failed: No lines in XML"
    ∧ runStrategies (fun cfg => if cfg.use_scraper then .error "blocked" else .ok ([], ""))
        [⟨true, false, "ScraperAPI"⟩, ⟨false, false, "Direct"⟩] none
        = (.ok ([], ""), ["ScraperAPI", "Direct"]) :=
  c6_empty_normalizer_fails (fun s => s) [⟨0, 0, []⟩] [⟨none, 0, 0⟩]
    (fun cfg => if cfg.use_scraper then .error "blocked" else .ok ([], ""))
    ⟨true, false, "ScraperAPI"⟩ ⟨false, false, "Direct"⟩ "blocked" ([], "")
    (by intro ev hev; simp at hev; subst hev; rfl)
    (by intro el hel; simp at hel; subst hel
        simp [xmlElemText, stripTagsStr, pyStripStr, pyStrip, stripTags])
    rfl rfl

/-- C9: on a payload that is valid JSON but whose events yield zero
nonempty lines, parse_timedtext_json raises the generic no-lines failure,
which the json.JSONDecodeError except clause does not catch, so the XML
fallback never runs (the flag stays false) and the whole attempt fails. -/
theorem c9_json_no_xml_fallback (u : String → String) (events : List Json3Event)
    (h : ∀ ev ∈ events, eventText u ev = "") :
    parse_timedtext_json_t u (.json events)
      = (.error "No lines parsed from timedtext", false) := by
  simp [parse_timedtext_json_t, jsonEventsResult_of_all_empty u events h]

/-- C9, witness: the theorem applied to a single segment-free event. -/
theorem c9_json_no_xml_fallback_witness :
    parse_timedtext_json_t (fun s => s) (.json [⟨0, 0, []⟩])
      = (.error "No lines parsed from timedtext", false) :=
  c9_json_no_xml_fallback (fun s => s) [⟨0, 0, []⟩]
    (by intro ev hev; simp at hev; subst hev; rfl)

/-! ### C5: normalizer shape -/

/-- The JSON3 line list is the per-event line of every event with nonempty
cleaned text, in original order. -/
lemma filterMap_mkLineJson (u : String → String) (events : List Json3Event) :
    events.filterMap (mkLineJson u)
      = (events.filter (fun e => !(eventText u e == ""))).map (lineOfEventJson u) := by
  induction events with
  | nil => rfl
  | cons e rest ih =>
    simp only [List.filterMap_cons, List.filter_cons]
    by_cases h : eventText u e = ""
    · simp [mkLineJson, h, ih]
    · simp [mkLineJson, h, ih]

/-- The XML line list is the per-element line of every element with
nonempty cleaned text, in original order. -/
lemma filterMap_mkLineXml (u : String → String) (elems : List XmlTextElem) :
    elems.filterMap (mkLineXml u)
      = (elems.filter (fun e => !(xmlElemText u e == ""))).map (lineOfElemXml u) := by
  induction elems with
  | nil => rfl
  | cons e rest ih =>
    simp only [List.filterMap_cons, List.filter_cons]
    by_cases h : xmlElemText u e = ""
    · simp [mkLineXml, h, ih]
    · simp [mkLineXml, h, ih]

/-- Round-half-to-even keeps nonnegative values nonnegative. -/
lemma roundHalfEven_nonneg {x : ℚ} (h : 0 ≤ x) : 0 ≤ roundHalfEven x := by
  have h0 : (0 : ℤ) ≤ ⌊x⌋ := Int.floor_nonneg.mpr h
  simp only [roundHalfEven]
  split_ifs <;> omega

/-- Rounding to two decimals keeps nonnegative values nonnegative. -/
lemma round2_nonneg {q : ℚ} (h : 0 ≤ q) : 0 ≤ round2 q := by
  unfold round2
  have h1 : (0 : ℤ) ≤ roundHalfEven (q * 100) := roundHalfEven_nonneg (by positivity)
  have h2 : (0 : ℚ) ≤ (roundHalfEven (q * 100) : ℚ) := by exact_mod_cast h1
  positivity

/-- C5, counterexample: for the event with tStartMs = 999 and text "hi",
the produced line has start rounded up to 1 but formatted_time "0:00",
computed from the unrounded 0.999 seconds; TimeFormatter applied to the
line field start gives "0:01" instead. -/
theorem c5_counterexample_formatted_time :
    jsonEventsResult (fun s => s) [⟨999, 500, [⟨"hi"⟩]⟩]
      = .ok ([⟨"hi", 1, 1/2, "0:00"⟩], "hi")
    ∧ format_time (1 : ℚ) = "0:01"
    ∧ ("0:00" : String) ≠ "0:01" := by
  have ht : eventText (fun s => s) ⟨999, 500, [⟨"hi"⟩]⟩ = "hi" := by rfl
  have h1 : round2 ((999 : ℚ)/1000) = 1 := by norm_num [round2, roundHalfEven]
  have h2 : round2 ((500 : ℚ)/1000) = 1/2 := by norm_num [round2, roundHalfEven]
  have h3 : format_time ((999 : ℚ)/1000) = "0:00" := by
    have h : pyInt ((999 : ℚ)/1000) = 0 := by norm_num [pyInt]
    simp only [format_time, h]; rfl
  have hline : lineOfEventJson (fun s => s) ⟨999, 500, [⟨"hi"⟩]⟩ = ⟨"hi", 1, 1/2, "0:00"⟩ := by
    simp only [lineOfEventJson, ht, h1, h2, h3]
  refine ⟨?_, ?_, by decide⟩
  · rw [jsonEventsResult, filterMap_mkLineJson]
    rw [show (([⟨999, 500, [⟨"hi"⟩]⟩] : List Json3Event).filter
          (fun e => !(eventText (fun s => s) e == ""))) = [⟨999, 500, [⟨"hi"⟩]⟩] from by
        simp [List.filter_cons, ht]]
    simp only [List.map_cons, List.map_nil, hline]
    rfl
  · have h : pyInt (1 : ℚ) = 1 := by norm_num [pyInt]
    simp only [format_time, h]; rfl

/-- C5, amended: on a well-formed JSON3 or XML input with N entries of
nonempty cleaned text (N positive), the normalizer succeeds and produces
exactly those N lines in original order; start and duration are the source
offsets rounded to two decimals and are nonnegative whenever the source
offsets are; formatted_time is TimeFormatter applied to the source
(pre-rounding) start seconds, not to the rounded start field. -/
theorem c5_normalizer_amended (u : String → String) (events : List Json3Event)
    (elems : List XmlTextElem)
    (hjne : events.filter (fun e => !(eventText u e == "")) ≠ [])
    (hjpos : ∀ e ∈ events, 0 ≤ e.tStartMs ∧ 0 ≤ e.dDurationMs)
    (hxne : elems.filter (fun e => !(xmlElemText u e == "")) ≠ [])
    (hxpos : ∀ e ∈ elems, 0 ≤ e.start ∧ 0 ≤ e.dur) :
    (jsonEventsResult u events
        = .ok ((events.filter (fun e => !(eventText u e == ""))).map (lineOfEventJson u),
            joinSpace (((events.filter (fun e => !(eventText u e == ""))).map
              (lineOfEventJson u)).map (fun l => l.text)))
      ∧ ((events.filter (fun e => !(eventText u e == ""))).map (lineOfEventJson u)).length
          = (events.filter (fun e => !(eventText u e == ""))).length
      ∧ (∀ l ∈ (events.filter (fun e => !(eventText u e == ""))).map (lineOfEventJson u),
          0 ≤ l.start ∧ 0 ≤ l.duration)
      ∧ (∀ e ∈ events,
          (lineOfEventJson u e).start = round2 (e.tStartMs / 1000)
          ∧ (lineOfEventJson u e).duration = round2 (e.dDurationMs / 1000)
          ∧ (lineOfEventJson u e).formatted_time = format_time (e.tStartMs / 1000)))
    ∧ (parse_timedtext_xml u (.ok elems)
        = .ok ((elems.filter (fun e => !(xmlElemText u e == ""))).map (lineOfElemXml u),
            joinSpace (((elems.filter (fun e => !(xmlElemText u e == ""))).map
              (lineOfElemXml u)).map (fun l => l.text)))
      ∧ ((elems.filter (fun e => !(xmlElemText u e == ""))).map (lineOfElemXml u)).length
          = (elems.filter (fun e => !(xmlElemText u e == ""))).length
      ∧ (∀ l ∈ (elems.filter (fun e => !(xmlElemText u e == ""))).map (lineOfElemXml u),
          0 ≤ l.start ∧ 0 ≤ l.duration)
      ∧ (∀ e ∈ elems,
          (lineOfElemXml u e).start = round2 e.start
          ∧ (lineOfElemXml u e).duration = round2 e.dur
          ∧ (lineOfElemXml u e).formatted_time = format_time e.start)) := by
  constructor
  · refine ⟨?_, List.length_map _ _, ?_, ?_⟩
    · rw [jsonEventsResult, filterMap_mkLineJson]
      rw [if_neg (by simp only [List.isEmpty_iff]; intro h
                     exact hjne (List.map_eq_nil_iff.mp h))]
    · intro l hl
      obtain ⟨e, he, rfl⟩ := List.mem_map.mp hl
      have hmem := List.mem_of_mem_filter he
      exact ⟨round2_nonneg (div_nonneg (hjpos e hmem).1 (by norm_num)),
             round2_nonneg (div_nonneg (hjpos e hmem).2 (by norm_num))⟩
    · intro e _
      exact ⟨rfl, rfl, rfl⟩
  · refine ⟨?_, List.length_map _ _, ?_, ?_⟩
    · rw [parse_timedtext_xml]
      simp only [filterMap_mkLineXml]
      rw [if_neg (by simp only [List.isEmpty_iff]; intro h
                     exact hxne (List.map_eq_nil_iff.mp h))]
    · intro l hl
      obtain ⟨e, he, rfl⟩ := List.mem_map.mp hl
      have hmem := List.mem_of_mem_filter he
      exact ⟨round2_nonneg (hxpos e hmem).1, round2_nonneg (hxpos e hmem).2⟩
    · intro e _
      exact ⟨rfl, rfl, rfl⟩

/-- C5, witness: the JSON success branch of the amended theorem applied to
one event with text "a". -/
theorem c5_normalizer_amended_witness :
    jsonEventsResult (fun s => s) [⟨0, 0, [⟨"a"⟩]⟩]
      = .ok ((([⟨0, 0, [⟨"a"⟩]⟩] : List Json3Event).filter
            (fun e => !(eventText (fun s => s) e == ""))).map (lineOfEventJson (fun s => s)),
          joinSpace (((([⟨0, 0, [⟨"a"⟩]⟩] : List Json3Event).filter
            (fun e => !(eventText (fun s => s) e == ""))).map
              (lineOfEventJson (fun s => s))).map (fun l => l.text))) :=
  (c5_normalizer_amended (fun s => s) [⟨0, 0, [⟨"a"⟩]⟩] [⟨some "b", 0, 0⟩]
    (by decide)
    (by intro e he; simp only [List.mem_singleton] at he; subst he
        exact ⟨le_refl 0, le_refl 0⟩)
    (by
      have hb : xmlElemText (fun s => s) ⟨some "b", 0, 0⟩ = "b" := by
        simp +decide [xmlElemText, stripTagsStr, pyStripStr, pyStrip, stripTags, isSpaceChar]
      simp [List.filter_cons, hb])
    (by intro e he; simp only [List.mem_singleton] at he; subst he
        exact ⟨le_refl 0, le_refl 0⟩)).1.1

/-! ### C4: caption track selection -/

/-- C4, counterexample: with tracks [fr auto-generated, de manual] and a
requested language matching neither, the code picks the first track (the
auto-generated fr one), while the claimed manual-before-auto rule would
pick the manual de track. -/
theorem c4_counterexample_manual_rule :
    selectCaptionTrack [⟨"fr", "uF", "asr"⟩, ⟨"de", "uD", ""⟩] "xx" = some "uF"
    ∧ (selectTrackPerClaim [⟨"fr", "uF", "asr"⟩, ⟨"de", "uD", ""⟩] "xx").map (fun t => t.baseUrl)
        = some "uD"
    ∧ ("uF" : String) ≠ "uD" :=
  ⟨by decide, by decide, by decide⟩

/-- C4, amended: track selection applies, first matching rule winning,
(1) equal-or-prefix match on the requested code, (2) a code containing
"en", (3) the first track in original order; the auto-generated flag is
never consulted; for tracks [en-US manual, en auto, fr manual] and
requested "en" the en-US track wins by prefix match. -/
theorem c4_track_selection_amended (tracks : List Track) (lang : String)
    (hurl : ∀ t ∈ tracks, t.baseUrl ≠ "") :
    selectCaptionTrack tracks lang =
      (match tracks.find? (fun t => t.languageCode == lang || pyStartsWith t.languageCode lang) with
       | some t => some t.baseUrl
       | none =>
         match tracks.find? (fun t => strContains t.languageCode "en") with
         | some t => some t.baseUrl
         | none => tracks.head?.map (fun t => t.baseUrl))
    ∧ (∀ k : String,
        selectedTrack (tracks.map (fun t => ⟨t.languageCode, t.baseUrl, k⟩)) lang
          = (selectedTrack tracks lang).map (fun t => ⟨t.languageCode, t.baseUrl, k⟩))
    ∧ selectCaptionTrack [⟨"en-US", "u1", ""⟩, ⟨"en", "u2", "asr"⟩, ⟨"fr", "u3", ""⟩] "en"
        = some "u1" := by
  refine ⟨?_, ?_, by decide⟩
  · rcases h1 : tracks.find? (fun t => t.languageCode == lang || pyStartsWith t.languageCode lang)
        with _ | t1
    · rcases h2 : tracks.find? (fun t => strContains t.languageCode "en") with _ | t2
      · rcases h3 : tracks.head? with _ | t0
        · simp [selectCaptionTrack, selectedTrack, h1, h2, h3, trackUnset]
        · have ht0 : t0.baseUrl ≠ "" := hurl t0 (List.mem_of_mem_head? h3)
          simp [selectCaptionTrack, selectedTrack, h1, h2, h3, trackUnset, ht0]
      · have ht2 : t2.baseUrl ≠ "" := hurl t2 (List.mem_of_find?_eq_some h2)
        simp [selectCaptionTrack, selectedTrack, h1, h2, trackUnset, ht2]
    · have ht1 : t1.baseUrl ≠ "" := hurl t1 (List.mem_of_find?_eq_some h1)
      simp [selectCaptionTrack, selectedTrack, h1, trackUnset, ht1]
  · intro k
    have hp1 : ((fun t : Track => t.languageCode == lang || pyStartsWith t.languageCode lang) ∘
        (fun t : Track => (⟨t.languageCode, t.baseUrl, k⟩ : Track)))
        = (fun t : Track => t.languageCode == lang || pyStartsWith t.languageCode lang) := rfl
    have hp2 : ((fun t : Track => strContains t.languageCode "en") ∘
        (fun t : Track => (⟨t.languageCode, t.baseUrl, k⟩ : Track)))
        = (fun t : Track => strContains t.languageCode "en") := rfl
    rcases h1 : tracks.find? (fun t => t.languageCode == lang || pyStartsWith t.languageCode lang)
        with _ | t1 <;>
      rcases h2 : tracks.find? (fun t => strContains t.languageCode "en") with _ | t2 <;>
        rcases h3 : tracks.head? with _ | t0 <;>
          simp [selectedTrack, List.find?_map, hp1, hp2, List.head?_map, h1, h2, h3, trackUnset] <;>
            split_ifs <;> simp

/-- C4, witness: the amended selection theorem applied at the en-US
example track list. -/
theorem c4_track_selection_amended_witness :
    selectCaptionTrack [⟨"en-US", "u1", ""⟩, ⟨"en", "u2", "asr"⟩, ⟨"fr", "u3", ""⟩] "en"
      = some "u1" :=
  (c4_track_selection_amended [⟨"en-US", "u1", ""⟩, ⟨"en", "u2", "asr"⟩, ⟨"fr", "u3", ""⟩] "en"
    (by decide)).2.2

/-! ### C1 and C2: the fallback orchestrator -/

/-- If every strategy before cfg fails and cfg succeeds, the loop returns
the success of cfg and attempts exactly the strategies up to cfg. -/
lemma runStrategies_prefix_ok (attempt : SessionCfg → Except String FetchResult) :
    ∀ (pre : List SessionCfg) (cfg : SessionCfg) (post : List SessionCfg)
      (init : Option String) (t : FetchResult),
      (∀ p ∈ pre, ∃ e, attempt p = .error e) → attempt cfg = .ok t →
      runStrategies attempt (pre ++ cfg :: post) init
        = (.ok t, pre.map (fun p => p.label) ++ [cfg.label]) := by
  intro pre
  induction pre with
  | nil =>
    intro cfg post init t _ hok
    simp [runStrategies, hok]
  | cons p rest ih =>
    intro cfg post init t hfail hok
    obtain ⟨e, he⟩ := hfail p (List.mem_cons_self p rest)
    have hrest : ∀ q ∈ rest, ∃ e2, attempt q = .error e2 :=
      fun q hq => hfail q (List.mem_cons_of_mem p hq)
    simp [runStrategies, he, ih cfg post (some e) t hrest hok]

/-- If every strategy fails, the loop ends with the error of the last
strategy attempted. -/
lemma runStrategies_all_fail (attempt : SessionCfg → Except String FetchResult) :
    ∀ (pre : List SessionCfg) (qlast : SessionCfg) (init : Option String) (elast : String),
      (∀ p ∈ pre, ∃ e, attempt p = .error e) → attempt qlast = .error elast →
      (runStrategies attempt (pre ++ [qlast]) init).1 = .error (some elast) := by
  intro pre
  induction pre with
  | nil =>
    intro qlast init elast _ hlast
    simp [runStrategies, hlast]
  | cons p rest ih =>
    intro qlast init elast hfail hlast
    obtain ⟨e, he⟩ := hfail p (List.mem_cons_self p rest)
    have hrest : ∀ q ∈ rest, ∃ e2, attempt q = .error e2 :=
      fun q hq => hfail q (List.mem_cons_of_mem p hq)
    simp [runStrategies, he, ih qlast (some e) elast hrest hlast]

/-- C1: the orchestrator attempts only strategies whose credential is
present (Direct needs none), in the fixed ScraperAPI, Custom Proxy, Direct
priority order; every failure before the first success is recorded and the
loop continues; the first success is returned and no later strategy is
invoked. -/
theorem c1_fallback_orchestrator (c : Config)
    (attempt : SessionCfg → Except String FetchResult)
    (pre post : List SessionCfg) (cfg : SessionCfg) (t : FetchResult)
    (hsplit : active_configs c = pre ++ cfg :: post)
    (hfail : ∀ p ∈ pre, ∃ e, attempt p = .error e)
    (hok : attempt cfg = .ok t) :
    (∀ q ∈ active_configs c,
        (q.use_scraper = true → c.SCRAPER_API_KEY ≠ "")
        ∧ (q.use_proxy = true → c.PROXY_URL ≠ ""))
    ∧ (active_configs c).Sublist session_configs
    ∧ runStrategies attempt (active_configs c) none
        = (.ok t, pre.map (fun p => p.label) ++ [cfg.label]) := by
  refine ⟨?_, List.filter_sublist _, ?_⟩
  · intro q hq
    have hfilter := List.of_mem_filter hq
    simp only [Bool.and_eq_true, Bool.not_eq_true', Bool.and_eq_false_imp, beq_eq_false_iff_ne,
        ne_eq] at hfilter
    exact ⟨fun h => hfilter.1 h, fun h => hfilter.2 h⟩
  · rw [hsplit]
    exact runStrategies_prefix_ok attempt pre cfg post none t hfail hok

/-- C1, witness: with both credentials present, ScraperAPI fails, Custom
Proxy succeeds, and Direct is never attempted. -/
theorem c1_fallback_orchestrator_witness :
    runStrategies (fun q => if q.use_scraper then .error "blocked" else .ok ([], ""))
        (active_configs ⟨"key", "proxy"⟩) none
      = (.ok ([], ""), ["ScraperAPI", "Custom Proxy"]) :=
  (c1_fallback_orchestrator ⟨"key", "proxy"⟩
    (fun q => if q.use_scraper then .error "blocked" else .ok ([], ""))
    [⟨true, false, "ScraperAPI"⟩] [⟨false, false, "Direct"⟩] ⟨false, true, "Custom Proxy"⟩
    ([], "") (by decide)
    (by intro p hp
        simp only [List.mem_singleton] at hp
        subst hp
        exact ⟨"blocked", rfl⟩)
    rfl).2.2

/-- C2: when every active strategy has failed, POST /transcript returns the
classification of the error text of the last attempted strategy: 503 when
its lowercased text contains one of the markers "blocked", "403",
"too many", "cloud", and 404 in every other case; no other terminal
outcome exists. -/
theorem c2_terminal_status (c : Config) (envOf : SessionCfg → FetchEnv)
    (u : String → String) (url lang vid : String)
    (pre : List SessionCfg) (qlast : SessionCfg) (elast : String)
    (hvid : extract_video_id url = some vid)
    (hsplit : active_configs c = pre ++ [qlast])
    (hfail : ∀ p ∈ pre, ∃ e, fetch_transcript_from_youtube (envOf p) u vid lang = .error e)
    (hlast : fetch_transcript_from_youtube (envOf qlast) u vid lang = .error elast) :
    get_transcript c envOf u url lang = .error (classifyTerminal (some elast))
    ∧ ((classifyTerminal (some elast)).1 = 503
        ↔ blockMarkers.any (fun w => strContains (pyLower elast) w) = true)
    ∧ ((classifyTerminal (some elast)).1 = 503 ∨ (classifyTerminal (some elast)).1 = 404) := by
  have hrun : (runStrategies
        (fun cfg => fetch_transcript_from_youtube (envOf cfg) u vid lang)
        (active_configs c) none).1 = .error (some elast) := by
    rw [hsplit]
    exact runStrategies_all_fail _ pre qlast none elast hfail hlast
  have hclass : classifyTerminal (some elast)
      = if blockMarkers.any (fun w => strContains (pyLower elast) w) then
          (503, "YouTube is blocking this server. Please try again later.")
        else
          (404, "No transcript found. This video may not have captions, or may be private/age-restricted.") :=
    rfl
  refine ⟨?_, ?_, ?_⟩
  · simp only [get_transcript, hvid, hrun]
  · rw [hclass]
    by_cases hb : blockMarkers.any (fun w => strContains (pyLower elast) w) = true
    · rw [if_pos hb]
      exact ⟨fun _ => hb, fun _ => rfl⟩
    · rw [if_neg hb]
      exact ⟨fun h => absurd h (by decide), fun h => absurd h hb⟩
  · rw [hclass]
    by_cases hb : blockMarkers.any (fun w => strContains (pyLower elast) w) = true
    · rw [if_pos hb]; left; rfl
    · rw [if_neg hb]; right; rfl

/-- C2, witness: with no credentials configured only Direct runs; it fails
with a text containing the marker "403", and the endpoint returns 503. -/
theorem c2_terminal_status_witness :
    get_transcript ⟨"", ""⟩
        (fun _ => ⟨403, [], 0, false, .json [], fun _ => 0, fun _ => .json []⟩)
        (fun s => s) "https://www.youtube.com/watch?v=dQw4w9WgXcQ" "en"
      = .error (classifyTerminal (some "YouTube returned 403")) :=
  (c2_terminal_status ⟨"", ""⟩
    (fun _ => ⟨403, [], 0, false, .json [], fun _ => 0, fun _ => .json []⟩)
    (fun s => s) "https://www.youtube.com/watch?v=dQw4w9WgXcQ" "en" "dQw4w9WgXcQ"
    [] ⟨false, false, "Direct"⟩ "YouTube returned 403"
    (by decide) (by decide)
    (by intro p hp; simp at hp)
    (by rfl)).1

/-! ### C8: the language field of a successful response -/

/-- Concrete evaluation of the whole pipeline over envC8: the request asks
for "en", the selector falls back to the only (French) track, and the
response carries language "en". -/
lemma get_transcript_envC8 :
    get_transcript ⟨"", ""⟩ (fun _ => envC8) (fun s => s)
        "https://www.youtube.com/watch?v=dQw4w9WgXcQ" "en"
      = .ok ⟨"dQw4w9WgXcQ", [⟨"bonjour", 0, 1, "0:00"⟩], "bonjour", 1, "en"⟩ := by
  have ht : eventText (fun s => s) ⟨0, 1000, [⟨"bonjour"⟩]⟩ = "bonjour" := by rfl
  have h0 : round2 ((0 : ℚ)/1000) = 0 := by norm_num [round2, roundHalfEven]
  have h1 : round2 ((1000 : ℚ)/1000) = 1 := by norm_num [round2, roundHalfEven]
  have hf : format_time ((0 : ℚ)/1000) = "0:00" := by
    have h : pyInt ((0 : ℚ)/1000) = 0 := by norm_num [pyInt]
    simp only [format_time, h]; rfl
  have hline : lineOfEventJson (fun s => s) ⟨0, 1000, [⟨"bonjour"⟩]⟩
      = ⟨"bonjour", 0, 1, "0:00"⟩ := by
    simp only [lineOfEventJson, ht, h0, h1, hf]
  have hparse : parse_timedtext_json (fun s => s) (.json [⟨0, 1000, [⟨"bonjour"⟩]⟩])
      = .ok ([⟨"bonjour", 0, 1, "0:00"⟩], "bonjour") := by
    show jsonEventsResult (fun s => s) [⟨0, 1000, [⟨"bonjour"⟩]⟩]
        = .ok ([⟨"bonjour", 0, 1, "0:00"⟩], "bonjour")
    rw [jsonEventsResult, filterMap_mkLineJson]
    rw [show (([⟨0, 1000, [⟨"bonjour"⟩]⟩] : List Json3Event).filter
          (fun e => !(eventText (fun s => s) e == ""))) = [⟨0, 1000, [⟨"bonjour"⟩]⟩] from by
        simp [List.filter_cons, ht]]
    simp only [List.map_cons, List.map_nil, hline]
    rfl
  have hsel : selectCaptionTrack [⟨"fr", "u1", ""⟩] "en" = some "u1" := by decide
  have hfmt : strContains "u1" "fmt=" = false := by decide
  have hfetch : fetch_transcript_from_youtube envC8 (fun s => s) "dQw4w9WgXcQ" "en"
      = .ok ([⟨"bonjour", 0, 1, "0:00"⟩], "bonjour") := by
    simp only [fetch_transcript_from_youtube, envC8, hsel, hfmt]
    norm_num
    exact hparse
  have hvid : extract_video_id "https://www.youtube.com/watch?v=dQw4w9WgXcQ"
      = some "dQw4w9WgXcQ" := by rfl
  have hactive : active_configs ⟨"", ""⟩ = [⟨false, false, "Direct"⟩] := by decide
  simp only [get_transcript, hvid, hactive, runStrategies, hfetch,
             show word_count "bonjour" = 1 from rfl]

/-- C8, counterexample: over envC8 the track actually used is the French
track (the selector fell back to the first available track), but the
successful response reports language "en", the requested code, not the
resolved code "fr". -/
theorem c8_counterexample_language_field :
    get_transcript ⟨"", ""⟩ (fun _ => envC8) (fun s => s)
        "https://www.youtube.com/watch?v=dQw4w9WgXcQ" "en"
      = .ok ⟨"dQw4w9WgXcQ", [⟨"bonjour", 0, 1, "0:00"⟩], "bonjour", 1, "en"⟩
    ∧ (selectedTrack envC8.captionTracks "en").map (fun t => t.languageCode) = some "fr"
    ∧ ("en" : String) ≠ "fr" :=
  ⟨get_transcript_envC8, by decide, by decide⟩

/-- C8, amended: the language field of every successful POST /transcript
response is exactly the requested language code, even when the caption
track actually used has a different language. -/
theorem c8_language_amended (c : Config) (envOf : SessionCfg → FetchEnv)
    (u : String → String) (url lang : String) (resp : TranscriptResponse)
    (h : get_transcript c envOf u url lang = .ok resp) :
    resp.language = lang := by
  simp only [get_transcript] at h
  rcases hvid : extract_video_id url with _ | vid
  · simp only [hvid] at h
    cases h
  · simp only [hvid] at h
    rcases hrun : (runStrategies (fun cfg => fetch_transcript_from_youtube (envOf cfg) u vid lang)
        (active_configs c) none).1 with e | r
    · simp only [hrun] at h
      cases h
    · rcases r with ⟨lines, full⟩
      simp only [hrun] at h
      cases h
      rfl

/-- C8, witness: the amended theorem applied to the concrete successful
envC8 run. -/
theorem c8_language_amended_witness :
    ((⟨"dQw4w9WgXcQ", [⟨"bonjour", 0, 1, "0:00"⟩], "bonjour", 1, "en"⟩ :
        TranscriptResponse)).language = "en" :=
  c8_language_amended ⟨"", ""⟩ (fun _ => envC8) (fun s => s)
    "https://www.youtube.com/watch?v=dQw4w9WgXcQ" "en"
    ⟨"dQw4w9WgXcQ", [⟨"bonjour", 0, 1, "0:00"⟩], "bonjour", 1, "en"⟩
    get_transcript_envC8

/-! ### C3: video id extraction -/

/-- toList distributes over string append. -/
lemma string_toList_append (s t : String) : (s ++ t).toList = s.toList ++ t.toList :=
  String.data_append s t

/-- Every character of a prefix is a character of the whole list. -/
lemma mem_of_isPrefixOf {pat l : List Char} (h : pat.isPrefixOf l = true) :
    ∀ c ∈ pat, c ∈ l :=
  fun c hc => (List.isPrefixOf_iff_prefix.mp h).subset hc

/-- tryHere fails when the pattern does not start here. -/
lemma tryHere_eq_none_of_not_prefix {pat s : List Char}
    (h : pat.isPrefixOf s = false) : tryHere pat s = none := by
  simp [tryHere, h]

/-- A successful tryHere returns an 11-character id over the id alphabet. -/
lemma tryHere_some_shape {pat s r : List Char} (h : tryHere pat s = some r) :
    r.length = 11 ∧ r.all isIdChar = true := by
  unfold tryHere at h
  dsimp only [] at h
  split_ifs at h with h1 h2
  injection h with h3
  subst h3
  rw [Bool.and_eq_true] at h2
  exact ⟨by simpa using h2.1, h2.2⟩

/-- A successful search returns an 11-character id over the id alphabet. -/
lemma searchPat_some_shape {pat : List Char} :
    ∀ {s r : List Char}, searchPat pat s = some r →
      r.length = 11 ∧ r.all isIdChar = true := by
  intro s
  induction s with
  | nil => intro r h; cases h
  | cons c rest ih =>
    intro r h
    rw [searchPat] at h
    rcases ht : tryHere pat (c :: rest) with _ | q
    · rw [ht] at h
      exact ih h
    · rw [ht] at h
      injection h with h2
      subst h2
      exact tryHere_some_shape ht

/-- A pattern containing a character absent from the text never matches. -/
lemma searchPat_none_of_missing (pat : List Char) :
    ∀ (s : List Char) (ch : Char), ch ∈ pat → ch ∉ s → searchPat pat s = none := by
  intro s
  induction s with
  | nil => intro ch _ _; rfl
  | cons c rest ih =>
    intro ch hch hns
    have hp : pat.isPrefixOf (c :: rest) = false := by
      rcases hq : pat.isPrefixOf (c :: rest) with _ | _
      · rfl
      · exact absurd (mem_of_isPrefixOf hq ch hch) hns
    rw [searchPat, tryHere_eq_none_of_not_prefix hp]
    exact ih ch hch (fun hm => hns (List.mem_cons_of_mem c hm))

/-- A mismatch inside the concrete prefix rules out a pattern match there,
whatever follows the prefix. -/
lemma isPrefixOf_append_eq_false_of_mismatch (pat pre tail : List Char)
    (h : MismatchAt pat pre 0) : pat.isPrefixOf (pre ++ tail) = false := by
  rcases hq : pat.isPrefixOf (pre ++ tail) with _ | _
  · rfl
  · exfalso
    obtain ⟨k, hk, hkpre, hne⟩ := h
    rw [Nat.zero_add] at hkpre hne
    have hpre := List.isPrefixOf_iff_prefix.mp hq
    have htake := List.prefix_iff_eq_take.mp hpre
    apply hne
    calc pat.get? k = ((pre ++ tail).take pat.length).get? k := by rw [← htake]
      _ = (pre ++ tail).get? k := List.get?_take hk
      _ = pre.get? k := List.get?_append hkpre

/-- When the pattern mismatches at every position inside the prefix, the
search continues past the prefix. -/
lemma searchPat_skip (pat : List Char) :
    ∀ (pre tail : List Char), (∀ i < pre.length, MismatchAt pat pre i) →
      searchPat pat (pre ++ tail) = searchPat pat tail := by
  intro pre
  induction pre with
  | nil => intro tail _; rfl
  | cons c rest ih =>
    intro tail h
    have h0 : MismatchAt pat (c :: rest) 0 := h 0 (by simp)
    have hp : pat.isPrefixOf ((c :: rest) ++ tail) = false :=
      isPrefixOf_append_eq_false_of_mismatch pat (c :: rest) tail h0
    rw [List.cons_append] at hp
    rw [List.cons_append, searchPat, tryHere_eq_none_of_not_prefix hp]
    refine ih tail ?_
    intro i hi
    obtain ⟨k, hk, hlen, hne⟩ := h (i + 1) (by simp only [List.length_cons]; omega)
    refine ⟨k, hk, ?_, ?_⟩
    · simp only [List.length_cons] at hlen
      omega
    · have harith : i + 1 + k = (i + k) + 1 := by omega
      rw [harith, List.get?_cons_succ] at hne
      exact hne

/-- The pattern matches at its own occurrence followed by a well-formed id. -/
lemma searchPat_at_match (pat id : List Char) (hne : pat ≠ [])
    (hlen : id.length = 11) (hall : id.all isIdChar = true) :
    searchPat pat (pat ++ id) = some id := by
  have hpre : pat.isPrefixOf (pat ++ id) = true :=
    List.isPrefixOf_iff_prefix.mpr (List.prefix_append pat id)
  have htry : tryHere pat (pat ++ id) = some id := by
    rw [tryHere, if_pos hpre, List.drop_left, List.take_of_length_le (le_of_eq hlen),
        if_pos (by simp [hlen, hall])]
  cases pat with
  | nil => exact absurd rfl hne
  | cons p ps =>
    rw [List.cons_append, searchPat, ← List.cons_append, htry]

/-- A pattern with a non-id character absent from the concrete prefix never
matches in prefix-plus-id text. -/
lemma searchPat_none_pre_id (pat pre id : List Char) (ch : Char)
    (hch : ch ∈ pat) (hnid : isIdChar ch = false) (hpre : ch ∉ pre)
    (hall : id.all isIdChar = true) : searchPat pat (pre ++ id) = none := by
  refine searchPat_none_of_missing pat (pre ++ id) ch hch ?_
  intro hmem
  rcases List.mem_append.mp hmem with hm | hm
  · exact hpre hm
  · have := List.all_eq_true.mp hall ch hm
    rw [hnid] at this
    cases this

/-- A pattern with a non-id character that mismatches everywhere inside the
concrete prefix never matches in prefix-plus-id text. -/
lemma searchPat_none_mismatch (pat pre id : List Char) (ch : Char)
    (hch : ch ∈ pat) (hnid : isIdChar ch = false)
    (hmis : ∀ i < pre.length, MismatchAt pat pre i)
    (hall : id.all isIdChar = true) : searchPat pat (pre ++ id) = none := by
  rw [searchPat_skip pat pre id hmis]
  refine searchPat_none_of_missing pat id ch hch ?_
  intro hm
  have := List.all_eq_true.mp hall ch hm
  rw [hnid] at this
  cases this

/-- Id characters are never stripped whitespace. -/
lemma idChar_not_space {c : Char} (h : isIdChar c = true) : isSpaceChar c = false := by
  rcases hq : isSpaceChar c with _ | _
  · rfl
  · exfalso
    simp only [isSpaceChar, Bool.or_eq_true, beq_iff_eq] at hq
    rcases hq with ((((rfl | rfl) | rfl) | rfl) | rfl) | rfl <;> exact absurd h (by decide)

/-- dropWhile is the identity when no element satisfies the predicate. -/
lemma dropWhile_eq_self_of_none {p : Char → Bool} {l : List Char}
    (h : ∀ c ∈ l, p c = false) : l.dropWhile p = l := by
  cases l with
  | nil => rfl
  | cons c rest =>
    rw [List.dropWhile_cons, h c (List.mem_cons_self c rest)]
    simp

/-- Stripping an all-id-characters list changes nothing. -/
lemma pyStrip_of_idChars {l : List Char} (hall : l.all isIdChar = true) :
    pyStrip l = l := by
  have hns : ∀ c ∈ l, isSpaceChar c = false :=
    fun c hc => idChar_not_space (List.all_eq_true.mp hall c hc)
  unfold pyStrip
  rw [dropWhile_eq_self_of_none hns,
      dropWhile_eq_self_of_none (fun c hc => hns c (List.mem_reverse.mp hc)),
      List.reverse_reverse]

/-- A successful findFirstPattern returns an 11-character id over the id
alphabet. -/
lemma findFirstPattern_some_shape :
    ∀ {ps : List (List Char)} {s r : List Char}, findFirstPattern ps s = some r →
      r.length = 11 ∧ r.all isIdChar = true := by
  intro ps
  induction ps with
  | nil => intro s r h; cases h
  | cons p rest ih =>
    intro s r h
    rw [findFirstPattern] at h
    rcases hs : searchPat p s with _ | q
    · rw [hs] at h
      exact ih h
    · rw [hs] at h
      injection h with h2
      subst h2
      exact searchPat_some_shape hs

/-- Whatever extract_video_id returns is an 11-character id over the id
alphabet. -/
lemma extract_video_id_some_shape {s r : String} (h : extract_video_id s = some r) :
    r.toList.length = 11 ∧ r.toList.all isIdChar = true := by
  unfold extract_video_id at h
  rcases hf : findFirstPattern idPatterns s.toList with _ | q
  · rw [hf] at h
    dsimp only [] at h
    split_ifs at h with h1
    rw [Bool.and_eq_true] at h1
    injection h with h2
    subst h2
    exact ⟨by simpa using h1.1, h1.2⟩
  · rw [hf] at h
    injection h with h2
    subst h2
    exact findFirstPattern_some_shape hf

/-- C3, counterexample: the claim lists live URLs among the recognized
forms, but extract_video_id has no live pattern, so a live URL with a
valid 11-character id fails extraction. -/
theorem c3_counterexample_live :
    extract_video_id "https://www.youtube.com/live/dQw4w9WgXcQ" = none := by rfl

/-- C3, amended: for every 11-character id over [A-Za-z0-9_-], watch
(v=), short (youtu.be/), shorts and embed URLs extract that id (patterns
tried in that order, first match winning, as the mixed youtu.be-and-v=
example shows); a bare id is returned unchanged; live URLs are not
recognized; and every successful extraction returns an 11-character id
over the id alphabet. -/
theorem c3_extract_video_id_amended (id : String)
    (hlen : id.toList.length = 11) (hall : id.toList.all isIdChar = true) :
    extract_video_id ("https://www.youtube.com/watch?v=" ++ id) = some id
    ∧ extract_video_id ("https://youtu.be/" ++ id) = some id
    ∧ extract_video_id ("https://www.youtube.com/shorts/" ++ id) = some id
    ∧ extract_video_id ("https://www.youtube.com/embed/" ++ id) = some id
    ∧ extract_video_id id = some id
    ∧ extract_video_id "https://youtu.be/AAAAAAAAAAA?z=1&v=BBBBBBBBBBB" = some "BBBBBBBBBBB"
    ∧ (∀ s r, extract_video_id s = some r →
        r.toList.length = 11 ∧ r.toList.all isIdChar = true) := by
  have hnotin : ∀ ch : Char, isIdChar ch = false → ch ∉ id.toList := by
    intro ch hch hm
    have := List.all_eq_true.mp hall ch hm
    rw [hch] at this
    cases this
  refine ⟨?_, ?_, ?_, ?_, ?_, by rfl, fun s r h => extract_video_id_some_shape h⟩
  · have h1 : searchPat "v=".toList ("https://www.youtube.com/watch?v=" ++ id).toList
        = some id.toList := by
      rw [string_toList_append,
          show "https://www.youtube.com/watch?v=".toList
            = "https://www.youtube.com/watch?".toList ++ "v=".toList from rfl,
          List.append_assoc, searchPat_skip _ _ _ (by decide)]
      exact searchPat_at_match _ _ (by decide) hlen hall
    simp only [extract_video_id, idPatterns, findFirstPattern, h1]
    rw [show String.mk id.toList = id from rfl]
  · have h0 : searchPat "v=".toList ("https://youtu.be/" ++ id).toList = none := by
      rw [string_toList_append]
      exact searchPat_none_pre_id _ _ _ '=' (by decide) (by decide) (by decide) hall
    have h1 : searchPat "youtu.be/".toList ("https://youtu.be/" ++ id).toList
        = some id.toList := by
      rw [string_toList_append,
          show "https://youtu.be/".toList = "https://".toList ++ "youtu.be/".toList from rfl,
          List.append_assoc, searchPat_skip _ _ _ (by decide)]
      exact searchPat_at_match _ _ (by decide) hlen hall
    simp only [extract_video_id, idPatterns, findFirstPattern, h0, h1]
    rw [show String.mk id.toList = id from rfl]
  · have h0 : searchPat "v=".toList ("https://www.youtube.com/shorts/" ++ id).toList = none := by
      rw [string_toList_append]
      exact searchPat_none_pre_id _ _ _ '=' (by decide) (by decide) (by decide) hall
    have h0b : searchPat "youtu.be/".toList
        ("https://www.youtube.com/shorts/" ++ id).toList = none := by
      rw [string_toList_append]
      exact searchPat_none_mismatch _ _ _ '.' (by decide) (by decide) (by decide) hall
    have h1 : searchPat "shorts/".toList ("https://www.youtube.com/shorts/" ++ id).toList
        = some id.toList := by
      rw [string_toList_append,
          show "https://www.youtube.com/shorts/".toList
            = "https://www.youtube.com/".toList ++ "shorts/".toList from rfl,
          List.append_assoc, searchPat_skip _ _ _ (by decide)]
      exact searchPat_at_match _ _ (by decide) hlen hall
    simp only [extract_video_id, idPatterns, findFirstPattern, h0, h0b, h1]
    rw [show String.mk id.toList = id from rfl]
  · have h0 : searchPat "v=".toList ("https://www.youtube.com/embed/" ++ id).toList = none := by
      rw [string_toList_append]
      exact searchPat_none_pre_id _ _ _ '=' (by decide) (by decide) (by decide) hall
    have h0b : searchPat "youtu.be/".toList
        ("https://www.youtube.com/embed/" ++ id).toList = none := by
      rw [string_toList_append]
      exact searchPat_none_mismatch _ _ _ '.' (by decide) (by decide) (by decide) hall
    have h0c : searchPat "shorts/".toList
        ("https://www.youtube.com/embed/" ++ id).toList = none := by
      rw [string_toList_append]
      exact searchPat_none_mismatch _ _ _ '/' (by decide) (by decide) (by decide) hall
    have h1 : searchPat "embed/".toList ("https://www.youtube.com/embed/" ++ id).toList
        = some id.toList := by
      rw [string_toList_append,
          show "https://www.youtube.com/embed/".toList
            = "https://www.youtube.com/".toList ++ "embed/".toList from rfl,
          List.append_assoc, searchPat_skip _ _ _ (by decide)]
      exact searchPat_at_match _ _ (by decide) hlen hall
    simp only [extract_video_id, idPatterns, findFirstPattern, h0, h0b, h0c, h1]
    rw [show String.mk id.toList = id from rfl]
  · have h0 : searchPat "v=".toList id.toList = none :=
      searchPat_none_of_missing _ _ '=' (by decide) (hnotin '=' (by decide))
    have h1 : searchPat "youtu.be/".toList id.toList = none :=
      searchPat_none_of_missing _ _ '.' (by decide) (hnotin '.' (by decide))
    have h2 : searchPat "shorts/".toList id.toList = none :=
      searchPat_none_of_missing _ _ '/' (by decide) (hnotin '/' (by decide))
    have h3 : searchPat "embed/".toList id.toList = none :=
      searchPat_none_of_missing _ _ '/' (by decide) (hnotin '/' (by decide))
    simp only [extract_video_id, idPatterns, findFirstPattern, h0, h1, h2, h3]
    rw [pyStrip_of_idChars hall,
        if_pos (by rw [Bool.and_eq_true]; exact ⟨by simpa using hlen, hall⟩),
        show String.mk id.toList = id from rfl]

/-- C3, witness: the amended theorem applied to the id dQw4w9WgXcQ, watch
URL case. -/
theorem c3_extract_video_id_amended_witness :
    extract_video_id ("https://www.youtube.com/watch?v=" ++ "dQw4w9WgXcQ")
      = some "dQw4w9WgXcQ" :=
  (c3_extract_video_id_amended "dQw4w9WgXcQ" (by decide) (by decide)).1
